import Mathlib

/-!
Shallow embedding of `functionary/inference.py` (the inference control layer:
tool-choice resolution, code-interpreter substitution, prompt suffix forcing,
stop-sequence detection, and post-generation trimming), together with proofs
of the behavioural properties claimed for it.

Token ids are modelled as `Int` (Python ints), token-id sequences as
`List Int`, and the OpenAI-style tool records as explicit structures.
Python list slicing with a possibly-zero negative bound
(`xs[-k:]`, `xs[:-k]`) is modelled by `pyTailSlice` / `pyDropTail`, which
reproduce the `k = 0` corner case of CPython slicing exactly.
-/

/-- Parameter schema of a function tool. The source stores a JSON dict of the
shape `\x7b"type": ..., "properties": \x7b...\x7d\x7d`; properties are kept as
an association list of property name and (opaque) property schema text. -/
structure ParamSchema where
  type : String
  properties : List (String × String)
  deriving DecidableEq, Repr

/-- The `function` member of a tool: `Function` in `functionary.openai_types`
(named `FunctionSpec` here because `Function` is a Mathlib namespace). -/
structure FunctionSpec where
  name : String
  description : String := ""
  parameters : Option ParamSchema := none
  deriving DecidableEq, Repr

/-- `Tool` from `functionary.openai_types`: a type discriminator
(`"function"` or `"code_interpreter"`) plus a function declaration. -/
structure Tool where
  type : String
  function : FunctionSpec
  deriving DecidableEq, Repr

/-- The `tool_choice` argument, `Union[str, Tool]` in the source. -/
inductive ToolChoice where
  | str (s : String)
  | tool (t : Tool)
  deriving DecidableEq, Repr

/-- Failure modes of `enforce_tool_choice`: the failed
`assert len(tools) > 0` (the `InvalidToolChoice` usage error of the design),
and the `TypeError` Python raises when iterating over `None`. -/
inductive ToolError where
  | invalidToolChoice
  | noneTypeNotIterable
  deriving DecidableEq, Repr

/-- `PYTHON_RUN_TOOL`, the fixed built-in tool literal at the top of
`inference.py`. The sentence about disabled internet access is commented out
in the source, so it is not part of the description string. -/
def PYTHON_RUN_TOOL : Tool :=
  { type := "function",
    function :=
      { name := "python",
        description := "When you send a message containing Python code to python, it will be executed in a stateful Jupyter notebook environment. python will respond with the output of the execution or time out after 60.0 seconds. The drive at \x27/mnt/data\x27 can be used to save and persist user files.",
        parameters := some { type := "object", properties := [] } } }

/-- CPython slice `l[-k:]` for `k ≤ len(l)`: for `k = 0` this is `l[0:] = l`
(the `-0 = 0` corner of Python slicing), otherwise the last `k` elements. -/
def pyTailSlice (l : List Int) (k : Nat) : List Int :=
  if k = 0 then l else l.drop (l.length - k)

/-- CPython slice `l[:-k]`: for `k = 0` this is `l[:0] = []`, otherwise all
but the last `k` elements. -/
def pyDropTail (l : List Int) (k : Nat) : List Int :=
  if k = 0 then [] else l.take (l.length - k)

/-- The guard of one loop iteration shared by `StopWordsCriteria.__call__`
and `remove_stop_tokens_from_end`:
`len(token_ids) >= len(seg) and token_ids[-len(seg):] == seg`. -/
def pyHit (token_ids seg : List Int) : Prop :=
  seg.length ≤ token_ids.length ∧ pyTailSlice token_ids seg.length = seg

instance (token_ids seg : List Int) : Decidable (pyHit token_ids seg) :=
  inferInstanceAs (Decidable (_ ∧ _))

/-- `StopWordsCriteria.__call__`: iterate over the registered stop sequences
and return `True` on the first whose token ids equal the tail of the full
id sequence handed in by the generation loop (prompt included, since the
source reads `input_ids[0].tolist()`); return `False` if none matches. -/
def stopWordsCriteriaCall (stops : List (List Int)) (input_ids : List Int) : Bool :=
  match stops with
  | [] => false
  | stop :: rest =>
      if pyHit input_ids stop then true else stopWordsCriteriaCall rest input_ids

/-- The relation `sorted(stop_sequences, key=lambda x: -len(x))` sorts by:
descending length. `List.insertionSort` with this relation is stable and so
reproduces the order CPython's stable `sorted` produces. -/
def lenGE (a b : List Int) : Prop := b.length ≤ a.length

instance : DecidableRel lenGE := fun a b => Nat.decLe b.length a.length

instance : IsTotal (List Int) lenGE := ⟨fun a b => Nat.le_total b.length a.length⟩

instance : IsTrans (List Int) lenGE := ⟨fun _ _ _ h1 h2 => Nat.le_trans h2 h1⟩

/-- The `for seg in sorted_sequences` loop body of
`remove_stop_tokens_from_end`: return `token_ids[:-len(seg)]` at the first
`seg` passing the guard, and `token_ids` unchanged when the loop falls
through. -/
def removeStopLoop (token_ids : List Int) : List (List Int) → List Int
  | [] => token_ids
  | seg :: rest =>
      if pyHit token_ids seg then pyDropTail token_ids seg.length
      else removeStopLoop token_ids rest

/-- `remove_stop_tokens_from_end`: sort the stop sequences by descending
length, then strip the first (hence longest) one matching the tail of
`token_ids`. -/
def remove_stop_tokens_from_end (token_ids : List Int)
    (stop_sequences : List (List Int)) : List Int :=
  removeStopLoop token_ids (List.insertionSort lenGE stop_sequences)

/-- The tokenizer-quirk correction applied to each tokenized stop marker in
`generate_message`: `if len(tok_ids) > 1 and tok_ids[0] == 29871:
tok_ids = tok_ids[1:]`. -/
def fixSentinelQuirk (tok_ids : List Int) : List Int :=
  if 1 < tok_ids.length ∧ tok_ids.headD 0 = 29871 then tok_ids.drop 1 else tok_ids

/-- The stop-word id lists built by `generate_message` from the already
tokenized stop markers: each marker is appended after the quirk correction. -/
def build_stop_words_ids (tokenized_stops : List (List Int)) : List (List Int) :=
  tokenized_stops.map fixSentinelQuirk

/-- `enforce_tool_choice`. `"none"` yields `[]`; a `Tool` with empty
description and absent parameters filters the declared tools by name and
asserts the filter result nonempty; any other `Tool` replaces the declared
list by itself; any other string falls through to `return tools`. Iterating
a `None` tools list in the filter branch raises, modelled as an error. -/
def enforce_tool_choice (tool_choice : ToolChoice) (tools : Option (List Tool)) :
    Except ToolError (Option (List Tool)) :=
  match tool_choice with
  | ToolChoice.str s => if s = "none" then Except.ok (some []) else Except.ok tools
  | ToolChoice.tool t =>
      if t.function.description = "" ∧ t.function.parameters = none then
        match tools with
        | none => Except.error ToolError.noneTypeNotIterable
        | some ts =>
            let filtered := ts.filter (fun tool => tool.function.name == t.function.name)
            if 0 < filtered.length then Except.ok (some filtered)
            else Except.error ToolError.invalidToolChoice
      else Except.ok (some [t])

/-- The `for i, tool in enumerate(tools)` loop of `enforce_code_interpreter`:
assign `PYTHON_RUN_TOOL` over the first entry whose type discriminator is
`"code_interpreter"`, then `break`. -/
def replaceFirstCodeInterp : List Tool → List Tool
  | [] => []
  | t :: rest =>
      if t.type = "code_interpreter" then PYTHON_RUN_TOOL :: rest
      else t :: replaceFirstCodeInterp rest

/-- `enforce_code_interpreter` with the caller's aliasing made explicit.
The source mutates the caller's list in place (`tools[i] = ...`) and then
returns that same list object, so the pair holds (return value, the list the
caller observes after the call); both components are the updated list. -/
def enforce_code_interpreter_withCaller (tools : Option (List Tool)) :
    Option (List Tool) × Option (List Tool) :=
  match tools with
  | none => (none, none)
  | some ts => (some (replaceFirstCodeInterp ts), some (replaceFirstCodeInterp ts))

/-- `enforce_code_interpreter`: the return value of the call. -/
def enforce_code_interpreter (tools : Option (List Tool)) : Option (List Tool) :=
  (enforce_code_interpreter_withCaller tools).1

/-- The slice of the Template collaborator used by the forced-suffix step of
`prepare_messages_for_inference`: the predefined function names (index 0 is
the canonical no-tool recipient) and
`get_stop_token_for_function_parameter(stage="function")`. -/
structure PromptTemplate where
  predefinedFunctionNames : List String
  stopTokenForFunctionParameter : String
  deriving DecidableEq, Repr

/-- Lines 75 to 82 of `inference.py`: the suffix appended to the rendered
prompt according to `tool_choice`. `None` and `"auto"` append nothing;
`"none"` appends `get_predefined_function_names()[0]` plus the
function-parameter stop token (an empty name list raises `IndexError`,
modelled as `none`); a `Tool` appends its function name plus that stop
token; any other string hits `tool_choice.function` on a `str` and raises
`AttributeError`, modelled as `none`. -/
def appendToolChoiceSuffix (tmpl : PromptTemplate) (final_prompt : String) :
    Option ToolChoice → Option String
  | none => some final_prompt
  | some tc =>
      if tc = ToolChoice.str "auto" then some final_prompt
      else
        (match tc with
          | ToolChoice.str s =>
              if s = "none" then
                tmpl.predefinedFunctionNames.head?.map (fun n => final_prompt ++ n)
              else none
          | ToolChoice.tool t => some (final_prompt ++ t.function.name)).map
          (fun p => p ++ tmpl.stopTokenForFunctionParameter)

/-- `needle` is a prefix of `hay`, on character lists. -/
def listStarts : List Char → List Char → Bool
  | [], _ => true
  | _ :: _, [] => false
  | c :: cs, d :: ds => c == d && listStarts cs ds

/-- `needle` occurs contiguously somewhere in `hay`, on character lists. -/
def listHasInfix (needle hay : List Char) : Bool :=
  match hay with
  | [] => listStarts needle []
  | _ :: ds => listStarts needle hay || listHasInfix needle ds

/-- Substring occurrence test used to state what the fixed description text
of `PYTHON_RUN_TOOL` does and does not mention. -/
def strHasSub (hay needle : String) : Bool :=
  listHasInfix needle.toList hay.toList

/-- A declared tool used in concrete instances below. -/
def weatherTool : Tool :=
  { type := "function",
    function :=
      { name := "get_current_weather",
        description := "Get the current weather",
        parameters := some { type := "object",
                             properties := [("location", "string"), ("format", "string")] } } }

/-- A second declared tool carrying the same function name as `weatherTool`
but a different description. -/
def weatherToolDup : Tool :=
  { type := "function",
    function :=
      { name := "get_current_weather",
        description := "Duplicate declaration of the weather tool",
        parameters := some { type := "object", properties := [] } } }

/-- A bare-name tool-choice reference to `get_current_weather`: empty
description, no parameter schema. -/
def bareWeatherChoice : Tool :=
  { type := "function",
    function := { name := "get_current_weather", description := "", parameters := none } }

/-- A code-interpreter sentinel entry as sent by a client. -/
def ciTool : Tool :=
  { type := "code_interpreter",
    function := { name := "code_interpreter", description := "", parameters := none } }

/-- A concrete template instance used in counterexamples and witnesses. -/
def tmplEx : PromptTemplate :=
  { predefinedFunctionNames := ["all", "none"],
    stopTokenForFunctionParameter := ":" }

/-! ## Helper lemmas about the stop-sequence guard and the trimming loop -/

/-- The loop guard holds exactly when `seg` is a suffix of `token_ids`,
except that the Python slice corner makes the empty `seg` match only the
empty `token_ids`. -/
theorem pyHit_iff (S seg : List Int) :
    pyHit S seg ↔ seg <:+ S ∧ (seg = [] → S = []) := by
  by_cases h0 : seg = []
  · subst h0
    simp [pyHit, pyTailSlice, List.nil_suffix, eq_comm]
  · have hk : seg.length ≠ 0 := by simpa [List.length_eq_zero] using h0
    simp only [pyHit, pyTailSlice, if_neg hk]
    constructor
    · rintro ⟨hlen, hdrop⟩
      refine ⟨⟨S.take (S.length - seg.length), ?_⟩, fun h => absurd h h0⟩
      have htd := List.take_append_drop (S.length - seg.length) S
      rw [hdrop] at htd
      exact htd
    · rintro ⟨hsuf, -⟩
      refine ⟨hsuf.length_le, ?_⟩
      rcases hsuf with ⟨t, rfl⟩
      rw [List.length_append, Nat.add_sub_cancel]
      exact List.drop_left t seg

/-- If the guard holds, stripping the matched tail and re-appending the
stop sequence reconstructs the input. -/
theorem pyHit_dropTail_append (S seg : List Int) (h : pyHit S seg) :
    pyDropTail S seg.length ++ seg = S := by
  rcases h with ⟨hlen, hslice⟩
  by_cases h0 : seg.length = 0
  · have hseg : seg = [] := List.length_eq_zero.mp h0
    subst hseg
    simp only [pyTailSlice, if_pos rfl] at hslice
    subst hslice
    simp [pyDropTail]
  · simp only [pyTailSlice, if_neg h0] at hslice
    simp only [pyDropTail, if_neg h0]
    have htd := List.take_append_drop (S.length - seg.length) S
    rw [hslice] at htd
    exact htd

/-- If no stop sequence passes the guard, the trimming loop falls through
and returns its input. -/
theorem removeStopLoop_of_no_hit (S : List Int) (L : List (List Int))
    (h : ∀ seg ∈ L, ¬ pyHit S seg) : removeStopLoop S L = S := by
  induction L with
  | nil => rfl
  | cons x rest ih =>
      rw [removeStopLoop, if_neg (h x (List.mem_cons_self x rest))]
      exact ih (fun seg hseg => h seg (List.mem_cons_of_mem x hseg))

/-- On a list sorted by descending length, the first stop sequence passing
the guard has maximal length among all guard hits, and the loop strips
exactly its length from the tail. -/
theorem removeStopLoop_first_hit (S : List Int) (L : List (List Int))
    (hs : List.Sorted lenGE L) (hex : ∃ seg ∈ L, pyHit S seg) :
    ∃ seg ∈ L, pyHit S seg ∧
      (∀ seg' ∈ L, pyHit S seg' → seg'.length ≤ seg.length) ∧
      removeStopLoop S L = pyDropTail S seg.length := by
  induction L with
  | nil => simp at hex
  | cons x rest ih =>
      rw [List.sorted_cons] at hs
      by_cases hx : pyHit S x
      · refine ⟨x, List.mem_cons_self x rest, hx, ?_, ?_⟩
        · intro seg' hmem hhit
          rcases List.mem_cons.mp hmem with h | h
          · subst h; exact Nat.le_refl _
          · exact hs.1 seg' h
        · rw [removeStopLoop, if_pos hx]
      · have hex' : ∃ seg ∈ rest, pyHit S seg := by
          rcases hex with ⟨seg, hmem, hhit⟩
          rcases List.mem_cons.mp hmem with h | h
          · subst h; exact absurd hhit hx
          · exact ⟨seg, h, hhit⟩
        rcases ih hs.2 hex' with ⟨seg, hmem, hhit, hmax, hres⟩
        refine ⟨seg, List.mem_cons_of_mem x hmem, hhit, ?_, ?_⟩
        · intro seg' hmem' hhit'
          rcases List.mem_cons.mp hmem' with h | h
          · subst h; exact absurd hhit' hx
          · exact hmax seg' h hhit'
        · rw [removeStopLoop, if_neg hx]
          exact hres

/-- Identity part of the Trimmer contract: with no matching suffix in the
stop-sequence set, `remove_stop_tokens_from_end` returns its input. -/
theorem remove_eq_of_no_suffix (S : List Int) (Ω : List (List Int))
    (h : ∀ ω ∈ Ω, ¬ ω <:+ S) : remove_stop_tokens_from_end S Ω = S := by
  apply removeStopLoop_of_no_hit
  intro seg hmem hhit
  exact h seg ((List.mem_insertionSort lenGE).mp hmem) ((pyHit_iff S seg).mp hhit).1

/-- Positive part of the Trimmer contract: when some stop sequence is a
suffix of the input, the result is the input with the longest matching stop
sequence removed from the end. -/
theorem remove_strips_longest (S : List Int) (Ω : List (List Int))
    (h : ∃ ω ∈ Ω, ω <:+ S) :
    ∃ ω ∈ Ω, ω <:+ S ∧ (∀ ω' ∈ Ω, ω' <:+ S → ω'.length ≤ ω.length) ∧
      remove_stop_tokens_from_end S Ω ++ ω = S := by
  by_cases hex : ∃ seg ∈ List.insertionSort lenGE Ω, pyHit S seg
  · rcases removeStopLoop_first_hit S _ (List.sorted_insertionSort lenGE Ω) hex with
      ⟨seg, hmem, hhit, hmax, hres⟩
    refine ⟨seg, (List.mem_insertionSort lenGE).mp hmem, ((pyHit_iff S seg).mp hhit).1,
      ?_, ?_⟩
    · intro ω' hmem' hsuf'
      by_cases h0 : ω' = []
      · subst h0; exact Nat.zero_le _
      · exact hmax ω' ((List.mem_insertionSort lenGE).mpr hmem')
          ((pyHit_iff S ω').mpr ⟨hsuf', fun hh => absurd hh h0⟩)
    · rw [remove_stop_tokens_from_end, hres]
      exact pyHit_dropTail_append S seg hhit
  · push_neg at hex
    have hres : remove_stop_tokens_from_end S Ω = S :=
      removeStopLoop_of_no_hit S _ hex
    rcases h with ⟨ω, hmem, hsuf⟩
    have hω : ω = [] := by
      by_contra h0
      exact hex ω ((List.mem_insertionSort lenGE).mpr hmem)
        ((pyHit_iff S ω).mpr ⟨hsuf, fun hh => absurd hh h0⟩)
    subst hω
    refine ⟨[], hmem, List.nil_suffix, ?_, by rw [hres, List.append_nil]⟩
    intro ω' hmem' hsuf'
    by_contra hlen
    have h0 : ω' ≠ [] := by
      intro hh; subst hh; simp at hlen
    exact hex ω' ((List.mem_insertionSort lenGE).mpr hmem')
      ((pyHit_iff S ω').mpr ⟨hsuf', fun hh => absurd hh h0⟩)

/-- The stop-criteria loop returns `true` exactly when some registered stop
sequence passes the guard against the full id sequence. -/
theorem stopWordsCriteriaCall_eq_true_iff (stops : List (List Int)) (inputs : List Int) :
    stopWordsCriteriaCall stops inputs = true ↔ ∃ stop ∈ stops, pyHit inputs stop := by
  induction stops with
  | nil => simp [stopWordsCriteriaCall]
  | cons x rest ih =>
      by_cases hx : pyHit inputs x
      · simp [stopWordsCriteriaCall, if_pos hx]
        exact Or.inl hx
      · simp only [stopWordsCriteriaCall, if_neg hx, ih, List.mem_cons]
        constructor
        · rintro ⟨stop, hmem, hhit⟩
          exact ⟨stop, Or.inr hmem, hhit⟩
        · rintro ⟨stop, hmem | hmem, hhit⟩
          · subst hmem; exact absurd hhit hx
          · exact ⟨stop, hmem, hhit⟩

/-- Filtering by name around a split: when no tool of `l1` or `l2` bears the
name and `tool` does, the filter keeps exactly `tool`. -/
theorem filter_name_split (l1 l2 : List Tool) (tool : Tool) (nm : String)
    (h1 : ∀ u ∈ l1, u.function.name ≠ nm)
    (h2 : ∀ u ∈ l2, u.function.name ≠ nm)
    (ht : tool.function.name = nm) :
    (l1 ++ tool :: l2).filter (fun u => u.function.name == nm) = [tool] := by
  induction l1 with
  | nil =>
      rw [List.nil_append, List.filter_cons_of_pos (by simpa using ht),
        List.filter_eq_nil_iff.mpr (fun u hu => by simpa using h2 u hu)]
  | cons x rest ih =>
      rw [List.cons_append,
        List.filter_cons_of_neg (by simpa using h1 x (List.mem_cons_self x rest))]
      exact ih (fun u hu => h1 u (List.mem_cons_of_mem x hu))

/-- The substitution loop is the identity on lists with no code-interpreter
sentinel. -/
theorem replaceFirstCodeInterp_of_none (ts : List Tool)
    (h : ∀ t ∈ ts, t.type ≠ "code_interpreter") : replaceFirstCodeInterp ts = ts := by
  induction ts with
  | nil => rfl
  | cons x rest ih =>
      rw [replaceFirstCodeInterp, if_neg (h x (List.mem_cons_self x rest))]
      rw [ih (fun t ht => h t (List.mem_cons_of_mem x ht))]

/-- The substitution loop replaces exactly the first code-interpreter
sentinel. -/
theorem replaceFirstCodeInterp_split (pre post : List Tool) (ci : Tool)
    (hpre : ∀ t ∈ pre, t.type ≠ "code_interpreter")
    (hci : ci.type = "code_interpreter") :
    replaceFirstCodeInterp (pre ++ ci :: post) = pre ++ PYTHON_RUN_TOOL :: post := by
  induction pre with
  | nil => rw [List.nil_append, replaceFirstCodeInterp, if_pos hci, List.nil_append]
  | cons x rest ih =>
      rw [List.cons_append, replaceFirstCodeInterp,
        if_neg (hpre x (List.mem_cons_self x rest)),
        ih (fun t ht => hpre t (List.mem_cons_of_mem x ht)), List.cons_append]

/-- The substitution loop moves a list only when it holds a code-interpreter
sentinel: `PYTHON_RUN_TOOL` has type `"function"`, so a replaced entry never
reproduces the original list. -/
theorem replaceFirstCodeInterp_eq_self_iff (ts : List Tool) :
    replaceFirstCodeInterp ts = ts ↔ ∀ t ∈ ts, t.type ≠ "code_interpreter" := by
  constructor
  · intro heq
    induction ts with
    | nil => intro t ht; simp at ht
    | cons x rest ih =>
        by_cases hx : x.type = "code_interpreter"
        · rw [replaceFirstCodeInterp, if_pos hx] at heq
          have hxpy : PYTHON_RUN_TOOL = x := (List.cons.injEq _ _ _ _).mp heq |>.1
          rw [← hxpy] at hx
          exact absurd hx (by decide)
        · rw [replaceFirstCodeInterp, if_neg hx] at heq
          have hrest := (List.cons.injEq _ _ _ _).mp heq |>.2
          intro t ht
          rcases List.mem_cons.mp ht with h | h
          · subst h; exact hx
          · exact ih hrest t h
  · exact replaceFirstCodeInterp_of_none ts

/-- Decidable equality for call results, used to evaluate the embedded
functions on concrete inputs. -/
instance {ε α : Type} [DecidableEq ε] [DecidableEq α] : DecidableEq (Except ε α)
  | Except.ok a, Except.ok b =>
      if h : a = b then Decidable.isTrue (by rw [h])
      else Decidable.isFalse (by intro hc; cases hc; exact h rfl)
  | Except.error e, Except.error f =>
      if h : e = f then Decidable.isTrue (by rw [h])
      else Decidable.isFalse (by intro hc; cases hc; exact h rfl)
  | Except.ok _, Except.error _ => Decidable.isFalse (by intro hc; cases hc)
  | Except.error _, Except.ok _ => Decidable.isFalse (by intro hc; cases hc)

/-! ## Claim theorems -/

/-- Claim C1: for every token-id list `S` and stop-sequence set `Ω`, if some
member of `Ω` is a suffix of `S` then `remove_stop_tokens_from_end` returns
`S` with the longest such suffix removed from the end (exactly one
occurrence), and if no member of `Ω` is a suffix of `S` it returns `S`
unchanged. -/
theorem remove_stop_tokens_longest_or_id (S : List Int) (Ω : List (List Int)) :
    ((∃ ω ∈ Ω, ω <:+ S) →
      ∃ ω ∈ Ω, ω <:+ S ∧ (∀ ω' ∈ Ω, ω' <:+ S → ω'.length ≤ ω.length) ∧
        remove_stop_tokens_from_end S Ω ++ ω = S) ∧
    ((∀ ω ∈ Ω, ¬ ω <:+ S) → remove_stop_tokens_from_end S Ω = S) :=
  ⟨remove_strips_longest S Ω, remove_eq_of_no_suffix S Ω⟩

/-- Witness for C1: on `S = [1, 2, 3]` with stop set `[[3], [2, 3]]` the
Trimmer strips the longest matching suffix, and a sequence with no matching
suffix passes through unchanged. -/
theorem remove_stop_tokens_longest_or_id_witness :
    (∃ ω ∈ ([[3], [2, 3]] : List (List Int)), ω <:+ [1, 2, 3] ∧
      (∀ ω' ∈ ([[3], [2, 3]] : List (List Int)), ω' <:+ [1, 2, 3] →
        ω'.length ≤ ω.length) ∧
      remove_stop_tokens_from_end [1, 2, 3] [[3], [2, 3]] ++ ω = [1, 2, 3]) ∧
    remove_stop_tokens_from_end [9] [[3], [2, 3]] = [9] := by
  constructor
  · exact (remove_stop_tokens_longest_or_id [1, 2, 3] [[3], [2, 3]]).1 (by decide)
  · exact (remove_stop_tokens_longest_or_id [9] [[3], [2, 3]]).2 (by decide)

/-- Counterexample to claim C2: `S = [1, 1]` ends in the stop sequence
`[1]`, yet re-running the Trimmer on the trimmed result `[1]` strips a
second occurrence, so the second run is not a no-op. -/
theorem trimmer_not_idempotent :
    (∃ ω ∈ ([[1]] : List (List Int)), ω <:+ [1, 1]) ∧
    remove_stop_tokens_from_end (remove_stop_tokens_from_end [1, 1] [[1]]) [[1]] ≠
      remove_stop_tokens_from_end [1, 1] [[1]] := by decide

/-- Claim C2 as amended: when the tail of `S` matches some stop sequence,
re-running the Trimmer on the trimmed result is a no-op provided no stop
sequence of `Ω` is a suffix of that trimmed result (a single run removes
exactly one occurrence, so a still-matching tail is trimmed again). -/
theorem trimmer_idempotent_on_clean_result (S : List Int) (Ω : List (List Int))
    (_h1 : ∃ ω ∈ Ω, ω <:+ S)
    (h2 : ∀ ω ∈ Ω, ¬ ω <:+ remove_stop_tokens_from_end S Ω) :
    remove_stop_tokens_from_end (remove_stop_tokens_from_end S Ω) Ω =
      remove_stop_tokens_from_end S Ω :=
  remove_eq_of_no_suffix _ _ h2

/-- Witness for the amended C2: `S = [1]`, `Ω = [[1]]`: the trimmed result
`[]` has no matching suffix and a second run leaves it unchanged. -/
theorem trimmer_idempotent_on_clean_result_witness :
    remove_stop_tokens_from_end (remove_stop_tokens_from_end [1] [[1]]) [[1]] =
      remove_stop_tokens_from_end [1] [[1]] :=
  trimmer_idempotent_on_clean_result [1] [[1]] (by decide) (by decide)

/-- Counterexample to claim C3: with two declared tools bearing the chosen
name, the bare-name tool choice returns a two-element list, not a
singleton, although some declared tool has the name. -/
theorem enforce_tool_choice_not_singleton :
    bareWeatherChoice.function.description = "" ∧
    bareWeatherChoice.function.parameters = none ∧
    (∃ tool ∈ [weatherTool, weatherToolDup],
      tool.function.name = bareWeatherChoice.function.name) ∧
    enforce_tool_choice (ToolChoice.tool bareWeatherChoice)
        (some [weatherTool, weatherToolDup]) =
      Except.ok (some [weatherTool, weatherToolDup]) ∧
    ¬ ∃ tool ∈ [weatherTool, weatherToolDup],
        enforce_tool_choice (ToolChoice.tool bareWeatherChoice)
            (some [weatherTool, weatherToolDup]) =
          Except.ok (some [tool]) := by decide

/-- Claim C3 as amended: a bare-name tool choice keeps every declared tool
bearing the chosen name — the singleton containing that tool when exactly
one declared tool bears it — and fails with `InvalidToolChoice` when no
declared tool bears it. -/
theorem enforce_tool_choice_bare_name (ts l1 l2 : List Tool) (tool t : Tool)
    (hbare : t.function.description = "" ∧ t.function.parameters = none) :
    ((ts = l1 ++ tool :: l2 → tool.function.name = t.function.name →
        (∀ u ∈ l1, u.function.name ≠ t.function.name) →
        (∀ u ∈ l2, u.function.name ≠ t.function.name) →
      enforce_tool_choice (ToolChoice.tool t) (some ts) = Except.ok (some [tool]))) ∧
    ((∀ u ∈ ts, u.function.name ≠ t.function.name) →
      enforce_tool_choice (ToolChoice.tool t) (some ts) =
        Except.error ToolError.invalidToolChoice) := by
  constructor
  · intro hts hname h1 h2
    subst hts
    rw [enforce_tool_choice]
    rw [if_pos hbare]
    simp only
    rw [filter_name_split l1 l2 tool t.function.name h1 h2 hname]
    rfl
  · intro hall
    rw [enforce_tool_choice]
    rw [if_pos hbare]
    simp only
    rw [List.filter_eq_nil_iff.mpr (fun u hu => by simpa using hall u hu)]
    rfl

/-- Witness for the amended C3: selecting `get_current_weather` among a
uniquely-named declared list yields its singleton; selecting it from a list
without that name fails with `InvalidToolChoice`. -/
theorem enforce_tool_choice_bare_name_witness :
    enforce_tool_choice (ToolChoice.tool bareWeatherChoice) (some [weatherTool]) =
      Except.ok (some [weatherTool]) ∧
    enforce_tool_choice (ToolChoice.tool bareWeatherChoice) (some [ciTool]) =
      Except.error ToolError.invalidToolChoice := by
  constructor
  · exact (enforce_tool_choice_bare_name [weatherTool] [] [] weatherTool
      bareWeatherChoice (by decide)).1 rfl (by decide) (by decide) (by decide)
  · exact (enforce_tool_choice_bare_name [ciTool] [] [] weatherTool
      bareWeatherChoice (by decide)).2 (by decide)

/-- Claim C4: `enforce_tool_choice` with policy `"none"` returns the empty
tool list whatever the declared list holds. -/
theorem enforce_tool_choice_none_empty (tools : Option (List Tool)) :
    enforce_tool_choice (ToolChoice.str "none") tools = Except.ok (some []) := rfl

/-- Counterexample to claim C5: with prompt `[5]` and generated tail `[6]`,
the stop predicate fires on the registered stop sequence `[5, 6]` although
no stop sequence is a suffix of the generated part alone — the match
overlaps the prompt prefix. -/
theorem stop_criteria_prompt_overlap :
    stopWordsCriteriaCall [[5, 6]] ([5] ++ [6]) = true ∧
    ¬ ∃ stop ∈ ([[5, 6]] : List (List Int)), stop <:+ [6] := by decide

/-- Claim C5 as amended: the stop predicate signals a halt exactly when some
registered (nonempty) StopSequence is a suffix of the full token-id sequence
handed to it, prompt prefix included; matches overlapping or lying within
the prompt prefix do trigger a halt. -/
theorem stop_criteria_full_sequence (stops : List (List Int))
    (prompt generated : List Int) (hne : ∀ stop ∈ stops, stop ≠ []) :
    stopWordsCriteriaCall stops (prompt ++ generated) = true ↔
      ∃ stop ∈ stops, stop <:+ prompt ++ generated := by
  rw [stopWordsCriteriaCall_eq_true_iff]
  constructor
  · rintro ⟨stop, hm, hh⟩
    exact ⟨stop, hm, ((pyHit_iff _ _).mp hh).1⟩
  · rintro ⟨stop, hm, hs⟩
    exact ⟨stop, hm, (pyHit_iff _ _).mpr ⟨hs, fun h => absurd h (hne stop hm)⟩⟩

/-- Witness for the amended C5 at stop set `[[6]]`, prompt `[5]`, generated
tail `[6]`. -/
theorem stop_criteria_full_sequence_witness :
    stopWordsCriteriaCall [[6]] ([5] ++ [6]) = true ↔
      ∃ stop ∈ ([[6]] : List (List Int)), stop <:+ [5] ++ [6] :=
  stop_criteria_full_sequence [[6]] [5] [6] (by decide)

/-- Claim C6: a tokenized stop marker of length above one starting with the
sentinel-quirk id 29871 is used with that leading id dropped; a marker
without that shape is used verbatim; the stop-word set is built by applying
this correction to every tokenized marker. -/
theorem sentinel_quirk_correction (markers : List (List Int)) (t : List Int) :
    (∀ t0 rest, t = t0 :: rest → rest ≠ [] → t0 = 29871 →
      fixSentinelQuirk t = rest) ∧
    (¬ (1 < t.length ∧ t.headD 0 = 29871) → fixSentinelQuirk t = t) ∧
    build_stop_words_ids markers = markers.map fixSentinelQuirk := by
  refine ⟨?_, ?_, rfl⟩
  · rintro t0 rest rfl hne rfl
    have hpos : 0 < rest.length := List.length_pos.mpr hne
    have hlen : 1 < ((29871 : Int) :: rest).length := Nat.succ_lt_succ hpos
    rw [fixSentinelQuirk, if_pos ⟨hlen, rfl⟩]
    rfl
  · intro h
    rw [fixSentinelQuirk, if_neg h]

/-- Witness for C6: `[29871, 7]` is corrected to `[7]`, while `[3]` and the
length-one list `[29871]` pass through verbatim. -/
theorem sentinel_quirk_correction_witness :
    fixSentinelQuirk [29871, 7] = [7] ∧ fixSentinelQuirk [3] = [3] ∧
    fixSentinelQuirk [29871] = [29871] := by
  refine ⟨?_, ?_, ?_⟩
  · exact (sentinel_quirk_correction [] [29871, 7]).1 29871 [7] rfl (by decide) rfl
  · exact (sentinel_quirk_correction [] [3]).2.1 (by decide)
  · exact (sentinel_quirk_correction [] [29871]).2.1 (by decide)

/-- Counterexample to claim C7: for policy `"none"` the assembled prompt is
not left unchanged — the source appends the first predefined function name
and the function-parameter stop marker. -/
theorem prompt_suffix_none_appends :
    appendToolChoiceSuffix tmplEx "PROMPT" (some (ToolChoice.str "none")) ≠
      some "PROMPT" := by decide

/-- Claim C7 as amended: an explicit tool choice appends the forced tool
name plus the function-parameter stop marker; policy `"none"` appends the
first predefined function name (the no-tool recipient) plus that marker;
policy `"auto"` and an absent policy append nothing. -/
theorem prompt_suffix_forcing (tmpl : PromptTemplate) (fp : String) (t : Tool)
    (n0 : String) (rest : List String) :
    (appendToolChoiceSuffix tmpl fp (some (ToolChoice.tool t)) =
      some (fp ++ t.function.name ++ tmpl.stopTokenForFunctionParameter)) ∧
    (tmpl.predefinedFunctionNames = n0 :: rest →
      appendToolChoiceSuffix tmpl fp (some (ToolChoice.str "none")) =
        some (fp ++ n0 ++ tmpl.stopTokenForFunctionParameter)) ∧
    appendToolChoiceSuffix tmpl fp (some (ToolChoice.str "auto")) = some fp ∧
    appendToolChoiceSuffix tmpl fp none = some fp := by
  refine ⟨?_, ?_, ?_, rfl⟩
  · simp [appendToolChoiceSuffix]
  · intro h
    simp [appendToolChoiceSuffix, h]
  · simp [appendToolChoiceSuffix]

/-- Witness for the amended C7 on a concrete template: the forced weather
tool, policy `"none"`, policy `"auto"`, and the absent policy. -/
theorem prompt_suffix_forcing_witness :
    appendToolChoiceSuffix tmplEx "P" (some (ToolChoice.tool weatherTool)) =
      some "Pget_current_weather:" ∧
    appendToolChoiceSuffix tmplEx "P" (some (ToolChoice.str "none")) =
      some "Pall:" ∧
    appendToolChoiceSuffix tmplEx "P" (some (ToolChoice.str "auto")) = some "P" := by
  have h := prompt_suffix_forcing tmplEx "P" weatherTool "all" ["none"]
  exact ⟨h.1, h.2.1 rfl, h.2.2.1⟩

set_option maxRecDepth 100000 in
/-- Counterexample to claim C8: the fixed description text of
`PYTHON_RUN_TOOL` does not state the absence of external network access —
the sentence about disabled internet access is commented out in the source,
so the description mentions neither "network" nor "Internet". -/
theorem python_tool_description_no_network :
    strHasSub PYTHON_RUN_TOOL.function.description "network" = false ∧
    strHasSub PYTHON_RUN_TOOL.function.description "Internet" = false ∧
    strHasSub PYTHON_RUN_TOOL.function.description "internet" = false := by decide

set_option maxRecDepth 100000 in
/-- Claim C8 as amended: `enforce_code_interpreter` replaces exactly the
first code-interpreter entry with the fixed built-in tool named `"python"`
whose parameter schema has no properties and whose description states
execution in a stateful Jupyter notebook with a 60.0-second timeout and a
persistent `/mnt/data` drive (it does not mention network access); a list
without such an entry, or a `None` list, is returned unchanged, never an
error. -/
theorem enforce_code_interpreter_replaces_first (ts pre post : List Tool) (ci : Tool) :
    enforce_code_interpreter none = none ∧
    ((∀ t ∈ ts, t.type ≠ "code_interpreter") →
      enforce_code_interpreter (some ts) = some ts) ∧
    (ts = pre ++ ci :: post → ci.type = "code_interpreter" →
      (∀ t ∈ pre, t.type ≠ "code_interpreter") →
      enforce_code_interpreter (some ts) = some (pre ++ PYTHON_RUN_TOOL :: post)) ∧
    PYTHON_RUN_TOOL.function.name = "python" ∧
    PYTHON_RUN_TOOL.function.parameters.map ParamSchema.properties = some [] ∧
    strHasSub PYTHON_RUN_TOOL.function.description "stateful Jupyter notebook" = true ∧
    strHasSub PYTHON_RUN_TOOL.function.description "60.0 seconds" = true ∧
    strHasSub PYTHON_RUN_TOOL.function.description "/mnt/data" = true := by
  refine ⟨rfl, ?_, ?_, rfl, rfl, by decide, by decide, by decide⟩
  · intro h
    show some (replaceFirstCodeInterp ts) = some ts
    rw [replaceFirstCodeInterp_of_none ts h]
  · intro hts hci hpre
    subst hts
    show some (replaceFirstCodeInterp (pre ++ ci :: post)) = _
    rw [replaceFirstCodeInterp_split pre post ci hpre hci]

/-- Witness for the amended C8: a list holding the sentinel followed by the
weather tool has exactly its first entry replaced, and a sentinel-free list
passes through unchanged. -/
theorem enforce_code_interpreter_replaces_first_witness :
    enforce_code_interpreter (some [ciTool, weatherTool]) =
      some [PYTHON_RUN_TOOL, weatherTool] ∧
    enforce_code_interpreter (some [weatherTool]) = some [weatherTool] := by
  constructor
  · exact (enforce_code_interpreter_replaces_first [ciTool, weatherTool] []
      [weatherTool] ciTool).2.2.1 rfl rfl (by decide)
  · exact (enforce_code_interpreter_replaces_first [weatherTool] [] [] ciTool).2.1
      (by decide)

/-- Counterexample to claim C9: passing a list holding a code-interpreter
sentinel, the list the caller observes after the call differs from the list
passed in — the source assigns `tools[i] = ...` into the caller-owned list. -/
theorem code_interpreter_mutates_caller :
    (enforce_code_interpreter_withCaller (some [ciTool])).2 ≠ some [ciTool] := by
  decide

/-- Claim C9 as amended: the caller's list aliases the returned list — after
the call the caller observes exactly the returned value — and it is left
element-for-element unchanged precisely when it holds no code-interpreter
entry. -/
theorem code_interpreter_caller_aliasing (ts : List Tool) :
    (enforce_code_interpreter_withCaller (some ts)).2 =
      (enforce_code_interpreter_withCaller (some ts)).1 ∧
    ((enforce_code_interpreter_withCaller (some ts)).2 = some ts ↔
      ∀ t ∈ ts, t.type ≠ "code_interpreter") := by
  refine ⟨rfl, ?_⟩
  show some (replaceFirstCodeInterp ts) = some ts ↔ _
  rw [Option.some_inj]
  exact replaceFirstCodeInterp_eq_self_iff ts

/-- Witness for the amended C9: a sentinel-free list is observed unchanged
by the caller. -/
theorem code_interpreter_caller_aliasing_witness :
    (enforce_code_interpreter_withCaller (some [weatherTool])).2 =
      some [weatherTool] :=
  (code_interpreter_caller_aliasing [weatherTool]).2.mpr (by decide)

/-- Claim C10: any string policy other than `"none"` — `"auto"` included,
unrecognized strings included — passes the declared tool list through
unchanged, with no filtering, no forcing and no error. -/
theorem enforce_tool_choice_string_passthrough (s : String)
    (tools : Option (List Tool)) (h : s ≠ "none") :
    enforce_tool_choice (ToolChoice.str s) tools = Except.ok tools := by
  rw [enforce_tool_choice, if_neg h]

/-- Witness for C10 at the unrecognized policy string `"required"`. -/
theorem enforce_tool_choice_string_passthrough_witness :
    enforce_tool_choice (ToolChoice.str "required") (some [weatherTool]) =
      Except.ok (some [weatherTool]) :=
  enforce_tool_choice_string_passthrough "required" (some [weatherTool]) (by decide)
